import Mathlib

/-!
Verification of `media/jni/android_media_MediaDescrambler.cpp` against its
natural-language specification.  The C++ code is shallowly embedded below:
machine integers are modelled as `Int`/`Nat` with explicit twos-complement
wrapping where overflow matters, JNI fallible calls return `Option`, and the
remote HIDL descrambler service is a function parameter supplied by each
theorem (a "stub").
-/

/-- Twos-complement wrap of an integer to a signed `w`-bit value (the value a
C cast/overflowing signed operation produces on the ARM/x86 targets this file
is built for). -/
def wrapS (w : Nat) (x : Int) : Int :=
  (x + 2 ^ (w - 1)) % 2 ^ w - 2 ^ (w - 1)

/-- Conversion of a signed integer to `uint32_t` (reduction mod `2^32`),
as when a `jint` is stored into a `uint32_t` field. -/
def toU32 (x : Int) : Nat :=
  (x % 4294967296).toNat

/-- `SubSample` from `android.hardware.cas.native@1.0`: two `uint32_t`
fields, so `sizeof(SubSample) = 8`. -/
structure SubSample where
  numBytesOfClearData : Nat
  numBytesOfEncryptedData : Nat
deriving DecidableEq

/-- `(signed)(INT32_MAX / sizeof(SubSample))` from the guard in
`getSubSampleInfo`: `2147483647 / 8 = 268435455`. -/
def maxSubSamples : Int := 2147483647 / (8 : Int)

/-- The `i`-th entry written into `subSamples` by the loop in
`getSubSampleInfo`: a missing array contributes 0, a present array is read
positionally (the `jint` value is converted to `uint32_t` on store). -/
def subSamplePair (clear enc : Option (List Int)) (i : Nat) : SubSample :=
  { numBytesOfClearData :=
      match clear with
      | none => 0
      | some a => toU32 (a.getD i 0)
  , numBytesOfEncryptedData :=
      match enc with
      | none => 0
      | some a => toU32 (a.getD i 0) }

/-- The amount added to `totalSize` for one subsample:
`numBytesOfClearData + numBytesOfEncryptedData` is a `uint32_t + uint32_t`
addition, which wraps mod `2^32` before being widened into the accumulator. -/
def pairContribution (p : SubSample) : Nat :=
  (p.numBytesOfClearData + p.numBytesOfEncryptedData) % 4294967296

/-- Value of the `ssize_t totalSize` accumulator of `getSubSampleInfo` after
the first `i` loop iterations, with `ssize_t` modelled as a signed `w`-bit
integer (`w = 64` on LP64 targets, `w = 32` on ILP32 targets). -/
def totalAfter (w : Nat) (clear enc : Option (List Int)) : Nat → Int
  | 0 => 0
  | i + 1 =>
      wrapS w (totalAfter w clear enc i +
        (pairContribution (subSamplePair clear enc i) : Int))

/-- The `subSamples` array filled by the loop in `getSubSampleInfo`. -/
def subSampleBatch (clear enc : Option (List Int)) (n : Nat) : List SubSample :=
  (List.range n).map (subSamplePair clear enc)

/-- `getSubSampleInfo`, parametrised by the bit width `w` of `ssize_t`.
Returns `none` where the source returns `-1`, and `some (batch, totalSize)`
where it returns a non-negative `totalSize` with `*outSubSamples` filled.
The `subSamples == NULL` allocation-failure branch is modelled as allocation
always succeeding. -/
def getSubSampleInfoW (w : Nat) (numSubSamples : Int)
    (clear enc : Option (List Int)) : Option (List SubSample × Int) :=
  if numSubSamples ≤ 0 ∨ maxSubSamples ≤ numSubSamples then
    none
  else
    let n := numSubSamples.toNat
    let total := totalAfter w clear enc n
    if total < 0 then none else some (subSampleBatch clear enc n, total)

/-- `getSubSampleInfo` on an LP64 platform (64-bit `ssize_t`). -/
def getSubSampleInfo64 (numSubSamples : Int) (clear enc : Option (List Int)) :
    Option (List SubSample × Int) :=
  getSubSampleInfoW 64 numSubSamples clear enc

/-- `getSubSampleInfo` on an ILP32 platform (32-bit `ssize_t`). -/
def getSubSampleInfo32 (numSubSamples : Int) (clear enc : Option (List Int)) :
    Option (List SubSample × Int) :=
  getSubSampleInfoW 32 numSubSamples clear enc

/-- Android `status_t` values used by this file (`OK`, `-ERANGE`,
`INVALID_OPERATION`, `NO_MEMORY`, `FAILED_TRANSACTION`). -/
inductive status_t where
  | OK
  | ERANGE
  | INVALID_OPERATION
  | NO_MEMORY
  | FAILED_TRANSACTION
deriving DecidableEq

/-- `android.hardware.cas@1.0::Status` values this file distinguishes:
`OK`, `ERROR_CAS_UNKNOWN`, and every other service-specific code. -/
inductive HidlStatus where
  | OK
  | ERROR_CAS_UNKNOWN
  | other (code : Nat)
deriving DecidableEq

/-- The transport descriptor `mDescramblerSrcBuffer` derived by
`ensureBufferCapacity`: heap reference, offset and size of the shared
region (the `hidl_string` detailed-error plumbing is not modelled). -/
structure DescramblerBuffer where
  heapId : Nat
  offset : Nat
  size : Nat
deriving DecidableEq

/-- The session state a `JDescrambler` carries across calls: `mMem` is the
current shared-memory region (its byte content; capacity is its length, and
`none` means no region has been allocated yet), and `mDescramblerSrcBuffer`
is the descriptor last handed to the remote service. -/
structure JDescramblerState where
  mMem : Option (List Nat)
  mDescramblerSrcBuffer : Option DescramblerBuffer
deriving DecidableEq

/-- One outcome of the remote `IDescrambler::descramble` HIDL call: either
the transaction itself fails (`!err.isOk()`), or the callback runs with a
status, a `uint32_t` byte count, and the content of the shared region as the
service leaves it (source and destination descriptors name the same
region). -/
inductive RemoteReply where
  | transportDead
  | reply (status : HidlStatus) (bytesWritten : Nat) (mem : List Nat)

/-- `(neededSize + (alignment - 1)) & ~(alignment - 1)` on 64-bit `size_t`.
For the power-of-two alignments `MemoryDealer` reports, clearing the low
bits of `s` is exactly `s - s % alignment`. -/
def alignSize (x a : Nat) : Nat :=
  let s := (x + (a - 1)) % 2 ^ 64
  s - s % a

/-- The size actually allocated by `ensureBufferCapacity` for a request of
`x` bytes: rounded up to the allocation alignment, then to the next
multiple of 64 KiB. -/
def roundUpSize (x a : Nat) : Nat :=
  alignSize (alignSize x a) 65536

/-- The reallocation path of `ensureBufferCapacity` (everything after the
capacity test): a fresh `MemoryDealer`/allocation replaces `mMem`
immediately; then `getMemory` may fail to return a heap (`heapId = none`),
then `native_handle_create` may fail (`handleOk = false`) — in both failure
cases the old region is already gone and the old descriptor is left in
place; on success the descriptor is rebuilt for the new region (a fresh
allocation sits at offset 0 of its dealer). -/
def growBuffer (alignment : Nat) (heapId : Option Nat) (handleOk : Bool)
    (st : JDescramblerState) (neededSize : Nat) : Bool × JDescramblerState :=
  let ns := roundUpSize neededSize alignment
  let st1 : JDescramblerState :=
    { mMem := some (List.replicate ns 0)
    , mDescramblerSrcBuffer := st.mDescramblerSrcBuffer }
  match heapId with
  | none => (false, st1)
  | some h =>
      if handleOk then
        (true,
          { mMem := some (List.replicate ns 0)
          , mDescramblerSrcBuffer := some { heapId := h, offset := 0, size := ns } })
      else (false, st1)

/-- `JDescrambler::ensureBufferCapacity`: a no-op when a region exists and
is already large enough, otherwise the grow path.  `alignment` stands for
`MemoryDealer::getAllocationAlignment()`; `heapId`/`handleOk` are the
answers of the platform allocator for this call. -/
def ensureBufferCapacity (alignment : Nat) (heapId : Option Nat)
    (handleOk : Bool) (st : JDescramblerState) (neededSize : Nat) :
    Bool × JDescramblerState :=
  match st.mMem with
  | some m =>
      if neededSize ≤ m.length then (true, st)
      else growBuffer alignment heapId handleOk st neededSize
  | none => growBuffer alignment heapId handleOk st neededSize

/-- `memcpy(dst + dstOff, src + srcOff, len)` over byte lists: the bytes of
`dst` in `[dstOff, dstOff + len)` are replaced by `src[srcOff ..]`, the rest
are untouched.  Reads past the end of `src` (undefined behaviour in the
source) are modelled as 0. -/
def memcpyList (dst : List Nat) (dstOff : Nat) (src : List Nat)
    (srcOff : Nat) (len : Nat) : List Nat :=
  (List.range dst.length).map fun i =>
    if dstOff ≤ i ∧ i < dstOff + len then src.getD (srcOff + (i - dstOff)) 0
    else dst.getD i 0

/-- Result of one `JDescrambler::descramble` call: the `status_t` return,
the session state after the call (`state.mMem` holds the final
content of the shared region), the final content of the destination buffer, and the out-parameters
`*status` / `*bytesWritten` (left at the modelling default 0/`OK` when the
callback never ran — they are uninitialised in the source on those paths).
`remoteCalled` records whether the remote service was invoked. -/
structure DescrambleResult where
  ret : status_t
  state : JDescramblerState
  dst : List Nat
  status : HidlStatus
  bytesWritten : Nat
  remoteCalled : Bool

/-- `JDescrambler::descramble`, parametrised by the bit width `w` of
`ssize_t` (64 on LP64, 32 on ILP32): ensure capacity (reporting
`NO_MEMORY` on failure before any remote call), copy `totalLength` source
bytes into the shared region, invoke the remote service on that region,
and on `status == OK` test `*bytesWritten > 0` (an unsigned comparison)
and `(ssize_t) *bytesWritten <= totalLength` — the cast wraps the
`uint32_t` count to a signed `w`-bit value, modelled by `wrapS w` — and
copy `bytesWritten` bytes back when the test passes; otherwise override
the status with `ERROR_CAS_UNKNOWN` and copy nothing. -/
def JDescrambler_descramble (w : Nat)
    (remote : Int → List SubSample → List Nat → RemoteReply)
    (alignment : Nat) (heapId : Option Nat) (handleOk : Bool)
    (st : JDescramblerState) (key : Int) (totalLength : Nat)
    (subSamples : List SubSample) (src : List Nat) (srcOffset : Nat)
    (dst : List Nat) (dstOffset : Nat) : DescrambleResult :=
  match ensureBufferCapacity alignment heapId handleOk st totalLength with
  | (false, st1) => ⟨.NO_MEMORY, st1, dst, .OK, 0, false⟩
  | (true, st1) =>
      let mem0 := st1.mMem.getD []
      let mem1 := memcpyList mem0 0 src srcOffset totalLength
      match remote key subSamples mem1 with
      | .transportDead =>
          ⟨.FAILED_TRANSACTION, { st1 with mMem := some mem1 }, dst, .OK, 0, true⟩
      | .reply s bw m =>
          let st2 : JDescramblerState := { st1 with mMem := some m }
          if s = .OK then
            if 0 < bw ∧ wrapS w (bw : Int) ≤ (totalLength : Int) then
              ⟨.OK, st2, memcpyList dst dstOffset m 0 bw, .OK, bw, true⟩
            else
              ⟨.OK, st2, dst, .ERROR_CAS_UNKNOWN, bw, true⟩
          else ⟨.OK, st2, dst, s, bw, true⟩

/-- A `java.nio.ByteBuffer` as `getBufferAndSize` probes it: it either
exposes a direct address, or (fallback) a backing `byte[]` that must be
borrowed via `GetByteArrayElements`; `hasArray = false` means the fallback
`array()` call returns `NULL`. -/
structure JByteBuffer where
  direct : Bool
  hasArray : Bool
  content : List Nat
deriving DecidableEq

/-- `getBufferAndSize`: resolves the backing storage of the buffer, then performs the
bounds check `(jint)length + offset > limit` — a signed 32-bit addition
that wraps.  Returns the `status_t` and whether a byte-array borrow is
still held at return (a borrow taken for the fallback path is released
inside the function on the range-error path). -/
def getBufferAndSize (buf : JByteBuffer) (offset limit : Int) (length : Nat) :
    status_t × Bool :=
  if ¬buf.direct ∧ ¬buf.hasArray then (.INVALID_OPERATION, false)
  else if limit < wrapS 32 (wrapS 32 (length : Int) + offset) then (.ERANGE, false)
  else (.OK, ¬buf.direct)

/-- The Java exceptions `native_descramble` can raise. -/
inductive JException where
  | IllegalState
  | IllegalArgument
  | OutOfMemory
  | RemoteException
  | ServiceSpecific (code : HidlStatus)
deriving DecidableEq

/-- Result of one `android_media_MediaDescrambler_native_descramble` call:
the `jint` return value, the exception raised (if any), how many byte-array
borrows taken during the call are still outstanding when it returns, the
final content of the destination buffer, the session state, and whether the
remote service was invoked. -/
structure NativeResult where
  retValue : Int
  exThrown : Option JException
  outstandingBorrows : Nat
  dst : List Nat
  state : JDescramblerState
  remoteCalled : Bool

/-- Exception selection at the tail of `native_descramble`: `NO_MEMORY`
maps to `OutOfMemoryError`, `FAILED_TRANSACTION` to `RemoteException`, and
a non-`OK` service status to a `ServiceSpecificException` carrying it. -/
def exceptionFor (r : DescrambleResult) : Option JException :=
  if r.ret = .NO_MEMORY then some .OutOfMemory
  else if r.ret = .FAILED_TRANSACTION then some .RemoteException
  else if r.status ≠ .OK then some (.ServiceSpecific r.status)
  else none

/-- `android_media_MediaDescrambler_native_descramble`, instantiated for
LP64 (64-bit `ssize_t`, hence `getSubSampleInfo64` and width 64 passed to
the descramble step).  Flow: null descrambler check, `getSubSampleInfo`,
`getBufferAndSize` on the source, then on the destination (or in-place
when `dstBuf` is absent), `JDescrambler::descramble`, release of the
borrows taken for the call, and exception mapping; the `jint` return
value is the `uint32_t` byte count (wrapped to signed 32 bits).  On the
early `err != OK` return after the destination check fails, only the
borrow belonging to the destination has been released inside
`getBufferAndSize` — the source borrow is still counted as outstanding,
exactly as in the source. -/
def native_descramble (remote : Int → List SubSample → List Nat → RemoteReply)
    (alignment : Nat) (heapId : Option Nat) (handleOk : Bool)
    (hasDescrambler : Bool) (st : JDescramblerState) (key : Int)
    (numSubSamples : Int) (clear enc : Option (List Int))
    (srcBuf : JByteBuffer) (srcOffset srcLimit : Int)
    (dstBuf : Option JByteBuffer) (dstOffset dstLimit : Int) : NativeResult :=
  let dstContent := match dstBuf with
    | none => srcBuf.content
    | some b => b.content
  if ¬hasDescrambler then
    ⟨-1, some .IllegalState, 0, dstContent, st, false⟩
  else
    match getSubSampleInfo64 numSubSamples clear enc with
    | none => ⟨-1, some .IllegalArgument, 0, dstContent, st, false⟩
    | some (subSamples, totalLength) =>
        let tl := totalLength.toNat
        match getBufferAndSize srcBuf srcOffset srcLimit tl with
        | (e1, srcBorrow) =>
            if e1 ≠ .OK then
              ⟨-1, some .IllegalArgument, 0, dstContent, st, false⟩
            else
              match dstBuf with
              | none =>
                  let r := JDescrambler_descramble 64 remote alignment heapId
                    handleOk st key tl subSamples srcBuf.content
                    srcOffset.toNat srcBuf.content dstOffset.toNat
                  ⟨wrapS 32 (r.bytesWritten : Int), exceptionFor r, 0,
                    r.dst, r.state, r.remoteCalled⟩
              | some db =>
                  match getBufferAndSize db dstOffset dstLimit tl with
                  | (e2, _dstBorrow) =>
                      if e2 ≠ .OK then
                        ⟨-1, some .IllegalArgument,
                          (if srcBorrow then 1 else 0), db.content, st, false⟩
                      else
                        let r := JDescrambler_descramble 64 remote alignment
                          heapId handleOk st key tl subSamples srcBuf.content
                          srcOffset.toNat db.content dstOffset.toNat
                        ⟨wrapS 32 (r.bytesWritten : Int), exceptionFor r, 0,
                          r.dst, r.state, r.remoteCalled⟩

/-- The `i`-th clear (resp. encrypted) length as the caller supplied it:
0 for a missing array, the positional `jint` otherwise. -/
def entryD (o : Option (List Int)) (i : Nat) : Int :=
  match o with
  | none => 0
  | some a => a.getD i 0

/-- The exact (unbounded-integer) sum of all clear and encrypted lengths —
the specification-side value that the total of `getSubSampleInfo` is compared with. -/
def exactTotal (clear enc : Option (List Int)) (n : Nat) : Int :=
  ∑ j ∈ Finset.range n, (entryD clear j + entryD enc j)

theorem wrapS_eq_self (w : Nat) (x : Int) (hw : 1 ≤ w)
    (h1 : -(2 ^ (w - 1)) ≤ x) (h2 : x < 2 ^ (w - 1)) : wrapS w x = x := by
  unfold wrapS
  have hsplit : (2 : Int) ^ w = 2 ^ (w - 1) * 2 := by
    rw [← pow_succ]
    congr 1
    omega
  have h0 : (0 : Int) ≤ x + 2 ^ (w - 1) := by linarith
  have h3 : x + 2 ^ (w - 1) < 2 ^ w := by
    rw [hsplit]; linarith
  rw [Int.emod_eq_of_lt h0 h3]
  ring

theorem toU32_nonneg_lt (x : Int) : 0 ≤ (toU32 x : Int) ∧ (toU32 x : Int) < 4294967296 := by
  unfold toU32
  have hpos : (0 : Int) < 4294967296 := by norm_num
  have h1 := Int.emod_nonneg x (by norm_num : (4294967296 : Int) ≠ 0)
  have h2 := Int.emod_lt_of_pos x hpos
  constructor
  · simp
  · rw [Int.toNat_of_nonneg h1]
    exact h2

theorem toU32_of_small (x : Int) (h1 : 0 ≤ x) (h2 : x < 4294967296) :
    (toU32 x : Int) = x := by
  unfold toU32
  rw [Int.emod_eq_of_lt h1 h2, Int.toNat_of_nonneg h1]

theorem pairContribution_lt (p : SubSample) : pairContribution p < 4294967296 := by
  unfold pairContribution
  exact Nat.mod_lt _ (by norm_num)

theorem totalAfter64_bounds (clear enc : Option (List Int)) :
    ∀ i : Nat, (i : Int) * 4294967296 < 2 ^ 63 →
      0 ≤ totalAfter 64 clear enc i ∧
        totalAfter 64 clear enc i ≤ (i : Int) * 4294967296 := by
  intro i
  induction i with
  | zero => intro _; simp [totalAfter]
  | succ k ih =>
      intro hbound
      have hk : (k : Int) * 4294967296 < 2 ^ 63 := by
        push_cast at hbound ⊢
        nlinarith
      obtain ⟨hlo, hhi⟩ := ih hk
      have hc : (pairContribution (subSamplePair clear enc k) : Int) < 4294967296 := by
        exact_mod_cast pairContribution_lt _
      have hc0 : (0 : Int) ≤ (pairContribution (subSamplePair clear enc k) : Int) := by
        positivity
      have hsum : totalAfter 64 clear enc k +
          (pairContribution (subSamplePair clear enc k) : Int) < 2 ^ 63 := by
        push_cast at hbound
        nlinarith
      have hw : totalAfter 64 clear enc (k + 1) =
          totalAfter 64 clear enc k +
            (pairContribution (subSamplePair clear enc k) : Int) := by
        show wrapS 64 _ = _
        apply wrapS_eq_self 64 _ (by norm_num)
        · have : (0 : Int) ≤ totalAfter 64 clear enc k +
              (pairContribution (subSamplePair clear enc k) : Int) := by linarith
          calc -(2 ^ (64 - 1) : Int) ≤ 0 := by norm_num
            _ ≤ _ := this
        · exact hsum
      rw [hw]
      constructor
      · linarith
      · push_cast
        nlinarith

theorem entryD_bounds (o : Option (List Int))
    (h : ∀ a, o = some a → ∀ v ∈ a, 0 ≤ v ∧ v < 2 ^ 31) (i : Nat) :
    0 ≤ entryD o i ∧ entryD o i < 2 ^ 31 := by
  cases o with
  | none => simp [entryD]
  | some a =>
      simp only [entryD]
      by_cases hi : i < a.length
      · have hmem : a.getD i 0 ∈ a := by
          rw [List.getD_eq_getElem _ _ hi]
          exact List.getElem_mem hi
        exact h a rfl _ hmem
      · rw [List.getD_eq_default _ _ (Nat.le_of_not_lt hi)]
        norm_num

theorem subSamplePair_clear (clear enc : Option (List Int)) (i : Nat) :
    (subSamplePair clear enc i).numBytesOfClearData = toU32 (entryD clear i) := by
  cases clear <;> simp [subSamplePair, entryD, toU32]

theorem subSamplePair_enc (clear enc : Option (List Int)) (i : Nat) :
    (subSamplePair clear enc i).numBytesOfEncryptedData = toU32 (entryD enc i) := by
  cases enc <;> simp [subSamplePair, entryD, toU32]

theorem toU32_toNat (x : Int) (h1 : 0 ≤ x) (h2 : x < 4294967296) :
    toU32 x = x.toNat := by
  unfold toU32
  rw [Int.emod_eq_of_lt h1 h2]

theorem pairContribution_exact (clear enc : Option (List Int)) (i : Nat)
    (hc : ∀ a, clear = some a → ∀ v ∈ a, 0 ≤ v ∧ v < 2 ^ 31)
    (he : ∀ a, enc = some a → ∀ v ∈ a, 0 ≤ v ∧ v < 2 ^ 31) :
    (pairContribution (subSamplePair clear enc i) : Int) =
      entryD clear i + entryD enc i := by
  obtain ⟨hc0, hc1⟩ := entryD_bounds clear hc i
  obtain ⟨he0, he1⟩ := entryD_bounds enc he i
  unfold pairContribution
  rw [subSamplePair_clear, subSamplePair_enc]
  rw [toU32_toNat _ hc0 (by linarith), toU32_toNat _ he0 (by linarith)]
  have hlt : (entryD clear i).toNat + (entryD enc i).toNat < 4294967296 := by
    omega
  rw [Nat.mod_eq_of_lt hlt]
  push_cast
  omega

theorem totalAfter64_exact (clear enc : Option (List Int)) (N : Nat)
    (hN : (N : Int) * 4294967296 < 2 ^ 63)
    (hc : ∀ a, clear = some a → ∀ v ∈ a, 0 ≤ v ∧ v < 2 ^ 31)
    (he : ∀ a, enc = some a → ∀ v ∈ a, 0 ≤ v ∧ v < 2 ^ 31) :
    ∀ i, i ≤ N → totalAfter 64 clear enc i = exactTotal clear enc i := by
  intro i
  induction i with
  | zero => intro _; simp [totalAfter, exactTotal]
  | succ k ih =>
      intro hk
      have hk' : k ≤ N := Nat.le_of_succ_le hk
      have hkb : (k : Int) * 4294967296 < 2 ^ 63 := by
        have : (k : Int) ≤ N := by exact_mod_cast hk'
        nlinarith
      obtain ⟨hlo, hhi⟩ := totalAfter64_bounds clear enc k hkb
      have hcont := pairContribution_exact clear enc k hc he
      have hcontlt : (pairContribution (subSamplePair clear enc k) : Int) <
          4294967296 := by exact_mod_cast pairContribution_lt _
      have hcont0 : (0 : Int) ≤ (pairContribution (subSamplePair clear enc k) : Int) := by
        positivity
      have hsum : totalAfter 64 clear enc k +
          (pairContribution (subSamplePair clear enc k) : Int) < 2 ^ 63 := by
        have hk1 : (k : Int) + 1 ≤ (N : Int) := by exact_mod_cast hk
        nlinarith
      have hw : totalAfter 64 clear enc (k + 1) =
          totalAfter 64 clear enc k +
            (pairContribution (subSamplePair clear enc k) : Int) := by
        show wrapS 64 _ = _
        apply wrapS_eq_self 64 _ (by norm_num)
        · calc -(2 ^ (64 - 1) : Int) ≤ 0 := by norm_num
            _ ≤ _ := by linarith
        · exact hsum
      rw [hw, ih hk', hcont]
      unfold exactTotal
      rw [Finset.sum_range_succ]

theorem subSampleBatch_length (clear enc : Option (List Int)) (n : Nat) :
    (subSampleBatch clear enc n).length = n := by
  simp [subSampleBatch]

theorem subSampleBatch_getD (clear enc : Option (List Int)) (n i : Nat)
    (h : i < n) :
    (subSampleBatch clear enc n).getD i ⟨0, 0⟩ = subSamplePair clear enc i := by
  unfold subSampleBatch
  have hlen : i < ((List.range n).map (subSamplePair clear enc)).length := by
    simpa using h
  rw [List.getD_eq_getElem _ _ hlen]
  simp

theorem memcpyList_length (dst src : List Nat) (dstOff srcOff len : Nat) :
    (memcpyList dst dstOff src srcOff len).length = dst.length := by
  simp [memcpyList]

theorem memcpyList_getD (dst src : List Nat) (dstOff srcOff len i : Nat)
    (h : i < dst.length) :
    (memcpyList dst dstOff src srcOff len).getD i 0 =
      if dstOff ≤ i ∧ i < dstOff + len then src.getD (srcOff + (i - dstOff)) 0
      else dst.getD i 0 := by
  unfold memcpyList
  have hlen : i < ((List.range dst.length).map fun i =>
      if dstOff ≤ i ∧ i < dstOff + len then src.getD (srcOff + (i - dstOff)) 0
      else dst.getD i 0).length := by
    simpa using h
  rw [List.getD_eq_getElem _ _ hlen]
  simp

theorem ensureBufferCapacity_noop (alignment : Nat) (heapId : Option Nat)
    (handleOk : Bool) (st : JDescramblerState) (n : Nat) (m : List Nat)
    (hm : st.mMem = some m) (hn : n ≤ m.length) :
    ensureBufferCapacity alignment heapId handleOk st n = (true, st) := by
  unfold ensureBufferCapacity
  rw [hm]
  simp [hn]

theorem wrapS_le_self (w : Nat) (x : Int) (h : 0 ≤ x) : wrapS w x ≤ x := by
  unfold wrapS
  have hpos : (0 : Int) < 2 ^ w := by positivity
  have h0 : (0 : Int) ≤ x + 2 ^ (w - 1) := by positivity
  have hdiv : (0 : Int) ≤ (x + 2 ^ (w - 1)) / 2 ^ w := Int.ediv_nonneg h0 hpos.le
  have hid := Int.ediv_add_emod (x + 2 ^ (w - 1)) (2 ^ w)
  nlinarith

theorem descramble_reply_spec (w : Nat)
    (remote : Int → List SubSample → List Nat → RemoteReply)
    (alignment : Nat) (heapId : Option Nat) (handleOk : Bool)
    (st : JDescramblerState) (key : Int) (tl : Nat)
    (subSamples : List SubSample) (src : List Nat) (srcOff : Nat)
    (dst : List Nat) (dstOff : Nat) (m : List Nat) (s : HidlStatus) (bw : Nat)
    (f : List Nat → List Nat)
    (hm : st.mMem = some m) (hlen : tl ≤ m.length)
    (hremote : remote = fun _ _ mem => .reply s bw (f mem)) :
    JDescrambler_descramble w remote alignment heapId handleOk st key tl
        subSamples src srcOff dst dstOff =
      if s = .OK then
        if 0 < bw ∧ wrapS w (bw : Int) ≤ (tl : Int) then
          ⟨.OK, { st with mMem := some (f (memcpyList m 0 src srcOff tl)) },
            memcpyList dst dstOff (f (memcpyList m 0 src srcOff tl)) 0 bw,
            .OK, bw, true⟩
        else
          ⟨.OK, { st with mMem := some (f (memcpyList m 0 src srcOff tl)) },
            dst, .ERROR_CAS_UNKNOWN, bw, true⟩
      else
        ⟨.OK, { st with mMem := some (f (memcpyList m 0 src srcOff tl)) },
          dst, s, bw, true⟩ := by
  subst hremote
  unfold JDescrambler_descramble
  rw [ensureBufferCapacity_noop alignment heapId handleOk st tl m hm hlen]
  simp only [hm, Option.getD_some]

theorem alignSize_ge (x a : Nat) (ha : 1 ≤ a) (hb : x + (a - 1) < 2 ^ 64) :
    x ≤ alignSize x a := by
  show x ≤ (x + (a - 1)) % 2 ^ 64 - (x + (a - 1)) % 2 ^ 64 % a
  rw [Nat.mod_eq_of_lt hb]
  have h1 : (x + (a - 1)) % a < a := Nat.mod_lt _ (by omega)
  omega

theorem alignSize_mod (x a : Nat) (_ha : 0 < a) : alignSize x a % a = 0 := by
  unfold alignSize
  have h := Nat.div_add_mod ((x + (a - 1)) % 2 ^ 64) a
  have h2 : (x + (a - 1)) % 2 ^ 64 - (x + (a - 1)) % 2 ^ 64 % a =
      a * ((x + (a - 1)) % 2 ^ 64 / a) := by omega
  rw [h2]
  simp [Nat.mul_mod_right]

theorem roundUpSize_ge (x a : Nat) (ha : 1 ≤ a)
    (hb : x + (a - 1) < 2 ^ 64) (hb2 : alignSize x a + 65535 < 2 ^ 64) :
    x ≤ roundUpSize x a := by
  unfold roundUpSize
  calc x ≤ alignSize x a := alignSize_ge x a ha hb
    _ ≤ alignSize (alignSize x a) 65536 :=
        alignSize_ge _ 65536 (by norm_num) (by omega)

theorem roundUpSize_mod (x a : Nat) : roundUpSize x a % 65536 = 0 :=
  alignSize_mod _ _ (by norm_num)

theorem growBuffer_success (alignment h : Nat) (st : JDescramblerState) (n : Nat) :
    growBuffer alignment (some h) true st n =
      (true, ⟨some (List.replicate (roundUpSize n alignment) 0),
              some ⟨h, 0, roundUpSize n alignment⟩⟩) := by
  simp [growBuffer]

theorem growBuffer_heapFail (alignment : Nat) (handleOk : Bool)
    (st : JDescramblerState) (n : Nat) :
    growBuffer alignment none handleOk st n =
      (false, ⟨some (List.replicate (roundUpSize n alignment) 0),
               st.mDescramblerSrcBuffer⟩) := by
  simp [growBuffer]

theorem growBuffer_handleFail (alignment h : Nat) (st : JDescramblerState)
    (n : Nat) :
    growBuffer alignment (some h) false st n =
      (false, ⟨some (List.replicate (roundUpSize n alignment) 0),
               st.mDescramblerSrcBuffer⟩) := by
  simp [growBuffer]

/-- C1: the specification claims that a source window that is out of range
in exact arithmetic (`srcOffset + totalLength > srcLimit`) always fails
with a range error before the remote service is invoked, the comparison
being performed at a width that cannot wrap around 32-bit signed
arithmetic.  The code compares `(jint)length + offset > limit` in 32-bit
signed arithmetic, which wraps: with `totalLength = 10`,
`srcOffset = 2147483640`, `srcLimit = 2147483647`, the exact sum
`2147483650` exceeds the limit, yet `getBufferAndSize` accepts the window
and `native_descramble` goes on to invoke the remote service. -/
theorem descramble_bounds_check_wraparound :
    ((2147483640 : Int) + 10 > 2147483647) ∧
    getBufferAndSize ⟨true, false, List.replicate 12 3⟩ 2147483640 2147483647 10 =
      (.OK, false) ∧
    (native_descramble (fun _ _ m => .reply (.other 7) 0 m) 4096 (some 1) true
        true ⟨some (List.replicate 16 0), none⟩ 0 1 (some [10]) none
        ⟨true, false, List.replicate 12 3⟩ 2147483640 2147483647
        (some ⟨true, false, List.replicate 16 0⟩) 0 16).remoteCalled = true ∧
    (native_descramble (fun _ _ m => .reply (.other 7) 0 m) 4096 (some 1) true
        true ⟨some (List.replicate 16 0), none⟩ 0 1 (some [10]) none
        ⟨true, false, List.replicate 12 3⟩ 2147483640 2147483647
        (some ⟨true, false, List.replicate 16 0⟩) 0 16).exThrown ≠
      some .IllegalArgument := by
  refine ⟨by norm_num, by decide, by decide, by decide⟩

/-- C5: the specification claims every byte-array borrow taken from a
non-direct caller buffer is released on every exit path of a descramble
call.  On the exit path where the borrow of the source buffer succeeded but the
destination bounds check fails, `native_descramble` returns `-1` without
releasing the source borrow: at the input below (non-direct source with a
valid window, direct destination with `dstOffset + totalLength > dstLimit`)
one borrow is still outstanding when the call returns. -/
theorem native_descramble_leaks_source_borrow :
    (native_descramble (fun _ _ _ => .transportDead) 4096 (some 1) true true
        ⟨none, none⟩ 0 1 (some [10]) none
        ⟨false, true, List.replicate 10 7⟩ 0 10
        (some ⟨true, false, List.replicate 10 0⟩) 0 5).outstandingBorrows = 1 ∧
    (native_descramble (fun _ _ _ => .transportDead) 4096 (some 1) true true
        ⟨none, none⟩ 0 1 (some [10]) none
        ⟨false, true, List.replicate 10 7⟩ 0 10
        (some ⟨true, false, List.replicate 10 0⟩) 0 5).retValue = -1 ∧
    (native_descramble (fun _ _ _ => .transportDead) 4096 (some 1) true true
        ⟨none, none⟩ 0 1 (some [10]) none
        ⟨false, true, List.replicate 10 7⟩ 0 10
        (some ⟨true, false, List.replicate 10 0⟩) 0 5).remoteCalled = false := by
  refine ⟨by decide, by decide, by decide⟩

/-- C6 counterexample: the claim says the computation fails whenever the
running total after any step is negative, even if the final total is
non-negative.  On an ILP32 platform (32-bit `ssize_t`, the only width at
which the accumulator can be negative at all), `numSubSamples = 2` with
clear lengths `[-2147483648, -2147483648]` drives the running total to
`-2147483648` after the first step, back to `0` after the second, and
`getSubSampleInfo` succeeds returning total `0` — there is no per-step
check in the code. -/
theorem getSubSampleInfo_running_negative_accepted :
    totalAfter 32 (some [-2147483648, -2147483648]) none 1 < 0 ∧
    totalAfter 32 (some [-2147483648, -2147483648]) none 2 = 0 ∧
    getSubSampleInfo32 2 (some [-2147483648, -2147483648]) none =
      some (subSampleBatch (some [-2147483648, -2147483648]) none 2, 0) := by
  refine ⟨by decide, by decide, by decide⟩

/-- C7: for `n ≤ 0` or `n ≥ MAX_COUNT = INT32_MAX / sizeof(SubSample)
= 268435455`, `getSubSampleInfo` fails at its entry guard, for every
`ssize_t` width and every pair of caller arrays — the result does not
depend on the arrays, which is how the embedding expresses that no array
element is read and no output batch is allocated. -/
theorem getSubSampleInfo_rejects_bad_count (w : Nat) (n : Int)
    (clear enc : Option (List Int)) (h : n ≤ 0 ∨ maxSubSamples ≤ n) :
    getSubSampleInfoW w n clear enc = none := by
  unfold getSubSampleInfoW
  rw [if_pos h]

/-- Witness for C7 at the boundary count `n = MAX_COUNT = 268435455`. -/
theorem getSubSampleInfo_rejects_bad_count_witness :
    ((268435455 : Int) ≤ 0 ∨ maxSubSamples ≤ 268435455) ∧
    getSubSampleInfoW 64 268435455 (some [1, 2]) (some [3, 4]) = none :=
  ⟨by decide,
   getSubSampleInfo_rejects_bad_count 64 268435455 (some [1, 2]) (some [3, 4])
     (by decide)⟩

/-- C2 counterexample: the claim says the returned total always equals the
exact sum of all clear and encrypted lengths.  On an ILP32 platform
(32-bit `ssize_t`), `n = 2` with clear and encrypted lengths all
`2^30 = 1073741824` — valid non-negative `jint` entries — has exact sum
`2^32 = 4294967296`, but the 32-bit accumulator wraps to 0 and the call
succeeds returning total 0. -/
theorem getSubSampleInfo_exact_sum_wraps32 :
    getSubSampleInfoW 32 2 (some [1073741824, 1073741824])
        (some [1073741824, 1073741824]) =
      some (subSampleBatch (some [1073741824, 1073741824])
        (some [1073741824, 1073741824]) 2, 0) ∧
    exactTotal (some [1073741824, 1073741824])
        (some [1073741824, 1073741824]) 2 = 4294967296 := by
  refine ⟨by decide, by decide⟩

/-- C2 amended: for every valid count `1 ≤ n < MAX_COUNT` and
clear/encrypted arrays that are absent or have length `n` with entries
that are valid `jint` lengths (non-negative), `getSubSampleInfo` produces
a batch of exactly `n` entries in input order — entry `i` holding the
`i`-th clear and encrypted lengths — and on LP64 platforms (64-bit
`ssize_t`) a total equal to the exact integer sum of all clear and
encrypted lengths; on ILP32 the accumulator wraps, so an input whose
exact sum reaches `2^31` can succeed with a wrapped total different from
the exact sum. -/
theorem getSubSampleInfo_exact_sum (n : Int) (clear enc : Option (List Int))
    (hn1 : 1 ≤ n) (hn2 : n < maxSubSamples)
    (_hcl : ∀ a, clear = some a → a.length = n.toNat)
    (_hel : ∀ a, enc = some a → a.length = n.toNat)
    (hc : ∀ a, clear = some a → ∀ v ∈ a, 0 ≤ v ∧ v < 2 ^ 31)
    (he : ∀ a, enc = some a → ∀ v ∈ a, 0 ≤ v ∧ v < 2 ^ 31) :
    getSubSampleInfo64 n clear enc =
      some (subSampleBatch clear enc n.toNat, exactTotal clear enc n.toNat) ∧
    (subSampleBatch clear enc n.toNat).length = n.toNat ∧
    ∀ i < n.toNat,
      (subSampleBatch clear enc n.toNat).getD i ⟨0, 0⟩ =
        ⟨(entryD clear i).toNat, (entryD enc i).toNat⟩ := by
  have hmax : maxSubSamples = 268435455 := by decide
  have hN : n.toNat < 268435455 := by
    rw [hmax] at hn2
    omega
  have hNb : ((n.toNat : Int)) * 4294967296 < 2 ^ 63 := by
    have h1 : (n.toNat : Int) < 268435455 := by exact_mod_cast hN
    nlinarith
  have htot := totalAfter64_exact clear enc n.toNat hNb hc he n.toNat le_rfl
  have hnn : 0 ≤ exactTotal clear enc n.toNat := by
    apply Finset.sum_nonneg
    intro j _
    obtain ⟨h1, _⟩ := entryD_bounds clear hc j
    obtain ⟨h2, _⟩ := entryD_bounds enc he j
    linarith
  refine ⟨?_, subSampleBatch_length clear enc n.toNat, ?_⟩
  · unfold getSubSampleInfo64 getSubSampleInfoW
    rw [if_neg (by omega : ¬(n ≤ 0 ∨ maxSubSamples ≤ n))]
    simp only [htot]
    rw [if_neg (by linarith : ¬exactTotal clear enc n.toNat < 0)]
  · intro i hi
    rw [subSampleBatch_getD clear enc n.toNat i hi]
    obtain ⟨hc0, hc1⟩ := entryD_bounds clear hc i
    obtain ⟨he0, he1⟩ := entryD_bounds enc he i
    have e1 : (subSamplePair clear enc i).numBytesOfClearData =
        (entryD clear i).toNat := by
      rw [subSamplePair_clear, toU32_toNat _ hc0 (by linarith)]
    have e2 : (subSamplePair clear enc i).numBytesOfEncryptedData =
        (entryD enc i).toNat := by
      rw [subSamplePair_enc, toU32_toNat _ he0 (by linarith)]
    calc subSamplePair clear enc i
        = ⟨(subSamplePair clear enc i).numBytesOfClearData,
           (subSamplePair clear enc i).numBytesOfEncryptedData⟩ := rfl
      _ = ⟨(entryD clear i).toNat, (entryD enc i).toNat⟩ := by rw [e1, e2]

/-- Witness for C2 at the end-to-end scenario of the specification: `n = 2`,
clear `[4, 0]`, encrypted `[0, 6]`, total `10`. -/
theorem getSubSampleInfo_exact_sum_witness :
    (1 ≤ (2 : Int)) ∧ ((2 : Int) < maxSubSamples) ∧
    getSubSampleInfo64 2 (some [4, 0]) (some [0, 6]) =
      some (subSampleBatch (some [4, 0]) (some [0, 6]) (2 : Int).toNat,
            exactTotal (some [4, 0]) (some [0, 6]) (2 : Int).toNat) :=
  ⟨by norm_num, by decide,
   (getSubSampleInfo_exact_sum 2 (some [4, 0]) (some [0, 6]) (by norm_num)
      (by decide)
      (by intro a h; injection h with h; subst h; rfl)
      (by intro a h; injection h with h; subst h; rfl)
      (by intro a h; injection h with h; subst h; decide)
      (by intro a h; injection h with h; subst h; decide)).1⟩

/-- C6 amended: `getSubSampleInfo` tests only the final accumulated total
for negativity, after the loop; there is no per-step check.  On LP64
platforms (64-bit `ssize_t`) the running total can never be negative for
any valid count — each step adds a value in `[0, 2^32)` obtained from the
wrapping unsigned 32-bit pair sum — so for every valid count the call
succeeds and returns the final accumulator value. -/
theorem getSubSampleInfo_final_check_only (n : Int)
    (clear enc : Option (List Int)) (hn1 : 1 ≤ n) (hn2 : n < maxSubSamples) :
    (∀ i ≤ n.toNat, 0 ≤ totalAfter 64 clear enc i) ∧
    getSubSampleInfo64 n clear enc =
      some (subSampleBatch clear enc n.toNat, totalAfter 64 clear enc n.toNat) := by
  have hmax : maxSubSamples = 268435455 := by decide
  have hN : n.toNat < 268435455 := by
    rw [hmax] at hn2
    omega
  have hbound : ∀ i, i ≤ n.toNat → ((i : Int)) * 4294967296 < 2 ^ 63 := by
    intro i hi
    have h1 : (i : Int) < 268435455 := by exact_mod_cast lt_of_le_of_lt hi hN
    nlinarith
  refine ⟨fun i hi => (totalAfter64_bounds clear enc i (hbound i hi)).1, ?_⟩
  unfold getSubSampleInfo64 getSubSampleInfoW
  rw [if_neg (by omega : ¬(n ≤ 0 ∨ maxSubSamples ≤ n))]
  have h0 := (totalAfter64_bounds clear enc n.toNat (hbound n.toNat le_rfl)).1
  simp only
  rw [if_neg (by linarith : ¬totalAfter 64 clear enc n.toNat < 0)]

/-- C8: `ensureBufferCapacity(n)` is a successful no-op preserving region
and descriptor whenever the current region exists with capacity `≥ n`;
otherwise it allocates a fresh region of size `n` rounded up to the
allocation alignment and then to the next multiple of 64 KiB — hence of
capacity `≥ n` — and derives a new transport descriptor for it. -/
theorem ensureBufferCapacity_policy (alignment h : Nat) (heapId : Option Nat)
    (handleOk : Bool) (st : JDescramblerState) (n : Nat)
    (ha : 1 ≤ alignment) (h64a : n + (alignment - 1) < 2 ^ 64)
    (h64b : alignSize n alignment + 65535 < 2 ^ 64) :
    (∀ m, st.mMem = some m → n ≤ m.length →
        ensureBufferCapacity alignment heapId handleOk st n = (true, st)) ∧
    ((∀ m, st.mMem = some m → m.length < n) →
        ensureBufferCapacity alignment (some h) true st n =
          (true, ⟨some (List.replicate (roundUpSize n alignment) 0),
                  some ⟨h, 0, roundUpSize n alignment⟩⟩) ∧
        n ≤ roundUpSize n alignment ∧
        roundUpSize n alignment % 65536 = 0) := by
  constructor
  · intro m hm hn
    exact ensureBufferCapacity_noop alignment heapId handleOk st n m hm hn
  · intro hlow
    refine ⟨?_, roundUpSize_ge n alignment ha h64a h64b,
      roundUpSize_mod n alignment⟩
    unfold ensureBufferCapacity
    cases hmm : st.mMem with
    | none => exact growBuffer_success alignment h st n
    | some m =>
        have hne : ¬n ≤ m.length := by
          have := hlow m hmm
          omega
        exact (if_neg hne).trans (growBuffer_success alignment h st n)

/-- Witness for C8: growing an empty session to 100 bytes with 4096-byte
alignment yields the 64 KiB-rounded capacity. -/
theorem ensureBufferCapacity_policy_witness :
    (1 ≤ 4096) ∧ (100 + (4096 - 1) < 2 ^ 64) ∧
    (alignSize 100 4096 + 65535 < 2 ^ 64) ∧
    (ensureBufferCapacity 4096 (some 5) true ⟨none, none⟩ 100 =
      (true, ⟨some (List.replicate (roundUpSize 100 4096) 0),
              some ⟨5, 0, roundUpSize 100 4096⟩⟩) ∧
     100 ≤ roundUpSize 100 4096 ∧ roundUpSize 100 4096 % 65536 = 0) :=
  ⟨by decide, by decide, by decide,
   (ensureBufferCapacity_policy 4096 5 (some 5) true ⟨none, none⟩ 100
      (by decide) (by decide) (by decide)).2
     (fun m hm => Option.noConfusion hm)⟩

/-- C9: when a grow is needed and no heap reference can be obtained for the
new region, `ensureBufferCapacity` reports failure; the old region has
already been discarded (the state now holds the fresh unconfirmed region,
not the old one, while the stale descriptor is left in place), and a
`descramble` call in that situation returns `NO_MEMORY` without invoking
the remote service and without touching the destination. -/
theorem ensureBufferCapacity_destroy_before_alloc (alignment : Nat)
    (handleOk : Bool) (st : JDescramblerState) (n : Nat) (m : List Nat)
    (hm : st.mMem = some m) (hlow : m.length < n)
    (ha : 1 ≤ alignment) (h64a : n + (alignment - 1) < 2 ^ 64)
    (h64b : alignSize n alignment + 65535 < 2 ^ 64) :
    ensureBufferCapacity alignment none handleOk st n =
      (false, ⟨some (List.replicate (roundUpSize n alignment) 0),
               st.mDescramblerSrcBuffer⟩) ∧
    (∀ h2, ensureBufferCapacity alignment (some h2) false st n =
      (false, ⟨some (List.replicate (roundUpSize n alignment) 0),
               st.mDescramblerSrcBuffer⟩)) ∧
    some (List.replicate (roundUpSize n alignment) 0) ≠ st.mMem ∧
    ∀ (w : Nat) remote key subSamples src srcOff dst dstOff
        (r : DescrambleResult),
      r = JDescrambler_descramble w remote alignment none handleOk st key n
        subSamples src srcOff dst dstOff →
      r.ret = .NO_MEMORY ∧ r.remoteCalled = false ∧ r.dst = dst := by
  have hne : ¬n ≤ m.length := by omega
  have hens : ensureBufferCapacity alignment none handleOk st n =
      (false, ⟨some (List.replicate (roundUpSize n alignment) 0),
               st.mDescramblerSrcBuffer⟩) := by
    unfold ensureBufferCapacity
    rw [hm]
    exact (if_neg hne).trans (growBuffer_heapFail alignment handleOk st n)
  refine ⟨hens, ?_, ?_, ?_⟩
  · intro h2
    unfold ensureBufferCapacity
    rw [hm]
    exact (if_neg hne).trans (growBuffer_handleFail alignment h2 st n)
  · intro hcontra
    rw [hm] at hcontra
    have heq := Option.some.inj hcontra
    have hlen := congrArg List.length heq
    rw [List.length_replicate] at hlen
    have hge := roundUpSize_ge n alignment ha h64a h64b
    omega
  · intro w remote key subSamples src srcOff dst dstOff r hr
    subst hr
    unfold JDescrambler_descramble
    rw [hens]
    exact ⟨rfl, rfl, rfl⟩

/-- Witness for C9: a session holding a 16-byte region asked to grow to
100 bytes while the heap reference is unavailable. -/
theorem ensureBufferCapacity_destroy_before_alloc_witness :
    ((List.replicate 16 0 : List Nat).length < 100) ∧ (1 ≤ 4096) ∧
    ensureBufferCapacity 4096 none true
        ⟨some (List.replicate 16 0), none⟩ 100 =
      (false, ⟨some (List.replicate (roundUpSize 100 4096) 0), none⟩) :=
  ⟨by decide, by decide,
   (ensureBufferCapacity_destroy_before_alloc 4096 true
      ⟨some (List.replicate 16 0), none⟩ 100 (List.replicate 16 0) rfl
      (by decide) (by decide) (by decide) (by decide)).1⟩

/-- C3: with a session whose region already has capacity `≥ totalLength`
and a remote stub that leaves the shared region unchanged and reports
`OK` with `bytesWritten = totalLength`, `descramble` leaves the
destination holding exactly the `totalLength` source bytes from
`srcOffset` at `dstOffset`, and every destination byte outside
`[dstOffset, dstOffset + totalLength)` unchanged. -/
theorem descramble_roundtrip (w : Nat) (alignment : Nat)
    (heapId : Option Nat)
    (handleOk : Bool) (st : JDescramblerState) (key : Int) (tl : Nat)
    (subSamples : List SubSample) (src dst m : List Nat)
    (srcOff dstOff : Nat) (r : DescrambleResult)
    (hm : st.mMem = some m) (hcap : tl ≤ m.length)
    (_hsrc : srcOff + tl ≤ src.length) (hdst : dstOff + tl ≤ dst.length)
    (htl : 0 < tl)
    (hr : r = JDescrambler_descramble w (fun _ _ mem => .reply .OK tl mem)
      alignment heapId handleOk st key tl subSamples src srcOff dst dstOff) :
    r.ret = .OK ∧ r.status = .OK ∧ r.bytesWritten = tl ∧
    r.dst.length = dst.length ∧
    (∀ i, dstOff ≤ i → i < dstOff + tl →
        r.dst.getD i 0 = src.getD (srcOff + (i - dstOff)) 0) ∧
    (∀ i, i < dst.length → i < dstOff ∨ dstOff + tl ≤ i →
        r.dst.getD i 0 = dst.getD i 0) := by
  have hspec := descramble_reply_spec w (fun _ _ mem => .reply .OK tl mem)
    alignment heapId handleOk st key tl subSamples src srcOff dst dstOff m
    .OK tl id hm hcap rfl
  rw [if_pos rfl,
    if_pos ⟨htl, wrapS_le_self w (tl : Int) (by positivity)⟩] at hspec
  subst hr
  rw [hspec]
  refine ⟨rfl, rfl, rfl, ?_, ?_, ?_⟩
  · exact memcpyList_length dst (memcpyList m 0 src srcOff tl) dstOff 0 tl
  · intro i h1 h2
    have hidst : i < dst.length := by omega
    show (memcpyList dst dstOff (memcpyList m 0 src srcOff tl) 0 tl).getD i 0 =
      src.getD (srcOff + (i - dstOff)) 0
    rw [memcpyList_getD dst (memcpyList m 0 src srcOff tl) dstOff 0 tl i hidst]
    rw [if_pos ⟨h1, h2⟩, Nat.zero_add]
    have hj : i - dstOff < m.length := by omega
    rw [memcpyList_getD m src 0 srcOff tl (i - dstOff) hj]
    rw [if_pos ⟨Nat.zero_le _, by omega⟩]
    simp
  · intro i h1 h2
    show (memcpyList dst dstOff (memcpyList m 0 src srcOff tl) 0 tl).getD i 0 =
      dst.getD i 0
    rw [memcpyList_getD dst (memcpyList m 0 src srcOff tl) dstOff 0 tl i h1]
    rw [if_neg (by omega)]

/-- Witness for C3: 10 bytes copied from offset 1 of the source to offset
2 of a 14-byte destination through a 16-byte transport region. -/
theorem descramble_roundtrip_witness :
    (0 < 10) ∧ (1 + 10 ≤ 12) ∧ (2 + 10 ≤ 14) ∧
    (JDescrambler_descramble 64 (fun _ _ mem => .reply .OK 10 mem) 4096
        (some 1) true ⟨some (List.replicate 16 0), none⟩ 0 10 []
        [1, 2, 3, 4, 5, 6, 7, 8, 9, 10, 11, 12] 1
        (List.replicate 14 0) 2).status = .OK ∧
    (JDescrambler_descramble 64 (fun _ _ mem => .reply .OK 10 mem) 4096
        (some 1) true ⟨some (List.replicate 16 0), none⟩ 0 10 []
        [1, 2, 3, 4, 5, 6, 7, 8, 9, 10, 11, 12] 1
        (List.replicate 14 0) 2).dst.getD 2 0 = 2 := by
  have h := descramble_roundtrip 64 4096 (some 1) true
    ⟨some (List.replicate 16 0), none⟩ 0 10 []
    [1, 2, 3, 4, 5, 6, 7, 8, 9, 10, 11, 12] (List.replicate 14 0)
    (List.replicate 16 0) 1 2 _ rfl (by decide) (by decide) (by decide)
    (by decide) rfl
  refine ⟨by decide, by decide, by decide, h.2.1, ?_⟩
  have h5 := h.2.2.2.2.1 2 (by decide) (by decide)
  simpa using h5

/-- C4 counterexample: the claim says a report of `status = OK` with
`bytesWritten > totalLength` never results in any destination bytes being
written.  On an ILP32 platform the line-210 guard casts the `uint32_t`
count with `(ssize_t)`, which wraps `bytesWritten = 2147483648` to
`-2147483648 ≤ totalLength`; both conjuncts of the guard hold, so with
`totalLength = 10` the code copies into the destination (the destination
changes), keeps `status = OK` (no override), and reports the oversized
count. -/
theorem descramble_invalid_output_wraps32 :
    ((2147483648 : Nat) > 10) ∧
    wrapS 32 (2147483648 : Int) ≤ (10 : Int) ∧
    (JDescrambler_descramble 32 (fun _ _ mem => .reply .OK 2147483648 mem)
        4096 (some 1) true ⟨some (List.replicate 16 0), none⟩ 0 10 []
        (List.replicate 12 3) 0 (List.replicate 14 0) 0).status = .OK ∧
    (JDescrambler_descramble 32 (fun _ _ mem => .reply .OK 2147483648 mem)
        4096 (some 1) true ⟨some (List.replicate 16 0), none⟩ 0 10 []
        (List.replicate 12 3) 0 (List.replicate 14 0) 0).dst ≠
      List.replicate 14 0 ∧
    (JDescrambler_descramble 32 (fun _ _ mem => .reply .OK 2147483648 mem)
        4096 (some 1) true ⟨some (List.replicate 16 0), none⟩ 0 10 []
        (List.replicate 12 3) 0 (List.replicate 14 0) 0).bytesWritten =
      2147483648 := by
  refine ⟨by decide, by decide, by decide, by decide, by decide⟩

/-- C4 amended: on LP64 platforms (64-bit `ssize_t`, where the line-210
cast of the `uint32_t` count is value-preserving) a report of
`status = OK` with `bytesWritten = 0` or `bytesWritten > totalLength`
copies nothing into the destination and overrides the status to
`ERROR_CAS_UNKNOWN`, and bytes are copied back exactly when
`status = OK` and `0 < bytesWritten ≤ totalLength`; on ILP32 the cast
wraps, so a reported `bytesWritten ≥ 2^31` passes the guard and bytes are
copied despite `bytesWritten > totalLength`. -/
theorem descramble_invalid_output (alignment : Nat) (heapId : Option Nat)
    (handleOk : Bool) (st : JDescramblerState) (key : Int) (tl : Nat)
    (subSamples : List SubSample) (src dst m : List Nat)
    (srcOff dstOff : Nat) (s : HidlStatus) (bw : Nat)
    (f : List Nat → List Nat) (r : DescrambleResult)
    (hm : st.mMem = some m) (hcap : tl ≤ m.length)
    (hbw32 : bw < 4294967296)
    (hr : r = JDescrambler_descramble 64 (fun _ _ mem => .reply s bw (f mem))
      alignment heapId handleOk st key tl subSamples src srcOff dst dstOff) :
    (s = .OK → bw = 0 ∨ tl < bw →
      r.dst = dst ∧ r.status = .ERROR_CAS_UNKNOWN ∧ r.bytesWritten = bw ∧
        r.ret = .OK) ∧
    r.dst = (if s = .OK ∧ 0 < bw ∧ bw ≤ tl
      then memcpyList dst dstOff (f (memcpyList m 0 src srcOff tl)) 0 bw
      else dst) := by
  have hwrap : wrapS 64 (bw : Int) = (bw : Int) := by
    apply wrapS_eq_self 64 _ (by norm_num)
    · calc -(2 ^ (64 - 1) : Int) ≤ 0 := by norm_num
        _ ≤ (bw : Int) := by positivity
    · have hb : (bw : Int) < 4294967296 := by exact_mod_cast hbw32
      calc (bw : Int) < 4294967296 := hb
        _ ≤ 2 ^ (64 - 1) := by norm_num
  have hcond : (0 < bw ∧ wrapS 64 (bw : Int) ≤ (tl : Int)) ↔
      (0 < bw ∧ bw ≤ tl) := by
    rw [hwrap]
    constructor
    · rintro ⟨h1, h2⟩
      exact ⟨h1, by exact_mod_cast h2⟩
    · rintro ⟨h1, h2⟩
      exact ⟨h1, by exact_mod_cast h2⟩
  have hspec := descramble_reply_spec 64 (fun _ _ mem => .reply s bw (f mem))
    alignment heapId handleOk st key tl subSamples src srcOff dst dstOff m
    s bw f hm hcap rfl
  simp only [hcond] at hspec
  subst hr
  rw [hspec]
  constructor
  · intro hs hbw
    subst hs
    rw [if_pos rfl, if_neg (by omega : ¬(0 < bw ∧ bw ≤ tl))]
    exact ⟨rfl, rfl, rfl, rfl⟩
  · by_cases hs : s = .OK
    · subst hs
      rw [if_pos rfl]
      by_cases hbw : 0 < bw ∧ bw ≤ tl
      · rw [if_pos hbw, if_pos ⟨rfl, hbw⟩]
      · rw [if_neg hbw, if_neg (fun h => hbw h.2)]
    · rw [if_neg hs, if_neg (fun h => hs h.1)]

/-- Witness for C4: the service claims `OK` with `bytesWritten = 20` for a
10-byte transform; destination stays all-zero and the status becomes
`ERROR_CAS_UNKNOWN`. -/
theorem descramble_invalid_output_witness :
    (HidlStatus.OK = .OK) ∧ ((20 : Nat) = 0 ∨ (10 : Nat) < 20) ∧
    ((20 : Nat) < 4294967296) ∧
    ((JDescrambler_descramble 64 (fun _ _ mem => .reply .OK 20 mem) 4096
        (some 1) true ⟨some (List.replicate 16 0), none⟩ 0 10 []
        (List.replicate 12 3) 0 (List.replicate 14 0) 0).dst =
      List.replicate 14 0 ∧
     (JDescrambler_descramble 64 (fun _ _ mem => .reply .OK 20 mem) 4096
        (some 1) true ⟨some (List.replicate 16 0), none⟩ 0 10 []
        (List.replicate 12 3) 0 (List.replicate 14 0) 0).status =
      .ERROR_CAS_UNKNOWN ∧
     (JDescrambler_descramble 64 (fun _ _ mem => .reply .OK 20 mem) 4096
        (some 1) true ⟨some (List.replicate 16 0), none⟩ 0 10 []
        (List.replicate 12 3) 0 (List.replicate 14 0) 0).bytesWritten = 20 ∧
     (JDescrambler_descramble 64 (fun _ _ mem => .reply .OK 20 mem) 4096
        (some 1) true ⟨some (List.replicate 16 0), none⟩ 0 10 []
        (List.replicate 12 3) 0 (List.replicate 14 0) 0).ret = .OK) :=
  ⟨rfl, by decide, by decide,
   (descramble_invalid_output 4096 (some 1) true
      ⟨some (List.replicate 16 0), none⟩ 0 10 [] (List.replicate 12 3)
      (List.replicate 14 0) (List.replicate 16 0) 0 0 .OK 20 id _ rfl
      (by decide) (by decide) rfl).1 rfl (by decide)⟩

/-- C10: when the invalid-output case fires (service reported `OK` with
`bytesWritten = 0` or `bytesWritten > totalLength`), the `jint` value
`native_descramble` returns is still the service-reported `bytesWritten`,
unchanged — not 0 — even though no destination bytes were written and the
surfaced status is the overridden `ERROR_CAS_UNKNOWN`. -/
theorem native_descramble_returns_reported_count
    (remote : Int → List SubSample → List Nat → RemoteReply)
    (alignment : Nat) (heapId : Option Nat) (handleOk : Bool)
    (st : JDescramblerState) (key : Int) (n : Int)
    (clear enc : Option (List Int)) (srcBuf dstB : JByteBuffer)
    (srcOffset srcLimit dstOffset dstLimit : Int)
    (subSamples : List SubSample) (tl : Int) (bw : Nat)
    (f : List Nat → List Nat) (m : List Nat) (r : NativeResult)
    (hsub : getSubSampleInfo64 n clear enc = some (subSamples, tl))
    (hremote : remote = fun _ _ mem => RemoteReply.reply .OK bw (f mem))
    (hsrc : getBufferAndSize srcBuf srcOffset srcLimit tl.toNat = (.OK, false))
    (hdst : getBufferAndSize dstB dstOffset dstLimit tl.toNat = (.OK, false))
    (hm : st.mMem = some m) (hcap : tl.toNat ≤ m.length)
    (hbw : bw = 0 ∨ tl.toNat < bw) (hbw31 : (bw : Int) < 2 ^ 31)
    (hr : r = native_descramble remote alignment heapId handleOk true st key
      n clear enc srcBuf srcOffset srcLimit (some dstB) dstOffset dstLimit) :
    r.retValue = (bw : Int) ∧ r.dst = dstB.content ∧
    r.exThrown = some (.ServiceSpecific .ERROR_CAS_UNKNOWN) ∧
    r.outstandingBorrows = 0 := by
  have hspec := descramble_reply_spec 64 remote alignment heapId handleOk st
    key tl.toNat subSamples srcBuf.content srcOffset.toNat dstB.content
    dstOffset.toNat m .OK bw f hm hcap hremote
  have hwrap : wrapS 64 (bw : Int) = (bw : Int) := by
    apply wrapS_eq_self 64 _ (by norm_num)
    · calc -(2 ^ (64 - 1) : Int) ≤ 0 := by norm_num
        _ ≤ (bw : Int) := by positivity
    · calc (bw : Int) < 2 ^ 31 := hbw31
        _ ≤ 2 ^ (64 - 1) := by norm_num
  have hneg : ¬(0 < bw ∧ wrapS 64 (bw : Int) ≤ (tl.toNat : Int)) := by
    rw [hwrap]
    rintro ⟨h1, h2⟩
    have h2n : bw ≤ tl.toNat := by exact_mod_cast h2
    omega
  rw [if_pos rfl, if_neg hneg] at hspec
  subst hr
  unfold native_descramble
  simp only [hsub, hsrc, hdst, hspec, exceptionFor]
  have hret : wrapS 32 ((⟨.OK,
      { st with mMem := some (f (memcpyList m 0 srcBuf.content srcOffset.toNat
        tl.toNat)) }, dstB.content, .ERROR_CAS_UNKNOWN, bw, true⟩ :
        DescrambleResult).bytesWritten : Int) = (bw : Int) := by
    apply wrapS_eq_self 32 _ (by norm_num)
    · have h0 : (0 : Int) ≤ (bw : Int) := by positivity
      calc -(2 ^ (32 - 1) : Int) ≤ 0 := by norm_num
        _ ≤ _ := h0
    · exact_mod_cast hbw31
  exact ⟨hret, rfl, rfl, rfl⟩

/-- Witness for C10: the service reports `OK` with `bytesWritten = 20` for
a 10-byte transform; the caller still receives 20. -/
theorem native_descramble_returns_reported_count_witness :
    ((20 : Nat) = 0 ∨ ((10 : Int)).toNat < 20) ∧
    (native_descramble (fun _ _ mem => RemoteReply.reply .OK 20 mem) 4096
        (some 1) true true ⟨some (List.replicate 16 0), none⟩ 0 1 (some [10])
        none ⟨true, false, List.replicate 12 3⟩ 0 12
        (some ⟨true, false, List.replicate 14 0⟩) 0 14).retValue = 20 ∧
    (native_descramble (fun _ _ mem => RemoteReply.reply .OK 20 mem) 4096
        (some 1) true true ⟨some (List.replicate 16 0), none⟩ 0 1 (some [10])
        none ⟨true, false, List.replicate 12 3⟩ 0 12
        (some ⟨true, false, List.replicate 14 0⟩) 0 14).exThrown =
      some (.ServiceSpecific .ERROR_CAS_UNKNOWN) := by
  have h := native_descramble_returns_reported_count
    (fun _ _ mem => RemoteReply.reply .OK 20 mem) 4096 (some 1) true
    ⟨some (List.replicate 16 0), none⟩ 0 1 (some [10]) none
    ⟨true, false, List.replicate 12 3⟩ ⟨true, false, List.replicate 14 0⟩
    0 12 0 14 [⟨10, 0⟩] 10 20 id (List.replicate 16 0) _
    (by decide) rfl (by decide) (by decide) rfl (by decide)
    (by decide) (by decide) rfl
  exact ⟨by decide, h.1, h.2.2.1⟩

/-- Witness for the C6 amended theorem at `n = 1`, clear `[-1]` (an
adversarial negative `jint` that becomes `4294967295` as `uint32_t`). -/
theorem getSubSampleInfo_final_check_only_witness :
    (1 ≤ (1 : Int)) ∧ ((1 : Int) < maxSubSamples) ∧
    getSubSampleInfo64 1 (some [-1]) none =
      some (subSampleBatch (some [-1]) none (1 : Int).toNat,
            totalAfter 64 (some [-1]) none (1 : Int).toNat) :=
  ⟨le_refl 1, by decide,
   (getSubSampleInfo_final_check_only 1 (some [-1]) none (le_refl 1)
      (by decide)).2⟩


